import Mathlib

/-!
Verification of the Newton/Gauss-Newton TLE inversion module
(`dsgp4/newton_method.py`) against its specification.

The numeric carrier is an arbitrary linearly ordered field `K`, with the
circle constant passed explicitly as a parameter `pi` (the source uses
`np.pi`).  External collaborators — the differentiable propagator
`util.propagate` together with the torch reverse-mode gradients, the
`np.linalg.inv` linear solve, the square root inside `np.linalg.norm`,
and the `kessler.tle.TLE` record class — are not part of the sources;
they are abstracted as parameters (`Oracle`) or, where a claim depends on
them, modelled from the spec and marked as such.
-/

/-- TLE record, as the field dictionary handed to the external
`kessler.tle.TLE` constructor (source `update_TLE`, lines 89-114). -/
@[ext]
structure TLERec (K : Type) where
  mean_motion : K
  b_star : K
  raan : K
  eccentricity : K
  argument_of_perigee : K
  inclination : K
  mean_anomaly : K
  mean_motion_first_derivative : K
  mean_motion_second_derivative : K
  epoch_days : K
  epoch_year : Int
  classification : String
  satellite_catalog_number : Int
  ephemeris_type : Int
  international_designator : String
  revolution_number_at_epoch : Int
  element_number : Int
  deriving DecidableEq

/-- Conversion factor between the revolutions/day-derived convention and
radians/minute (source line 90: `xpdotp=1440.0/(2.0*np.pi)`). -/
def xpdotp {K : Type} [LinearOrderedField K] (pi : K) : K := 1440 / (2 * pi)

/-- Embedding of `update_TLE` (source lines 76-114): build a new TLE record
whose free elements come from the parameter vector `y0` and whose fixed
fields are copied from `old_tle`. -/
def update_TLE {K : Type} [LinearOrderedField K] (pi : K) (old_tle : TLERec K)
    (y0 : Fin 10 → K) : TLERec K :=
  let no_kozai := y0 7 * xpdotp pi
  { mean_motion := no_kozai * pi / 43200
    b_star := y0 0
    raan := y0 8
    eccentricity := y0 3
    argument_of_perigee := y0 4
    inclination := y0 5
    mean_anomaly := y0 6
    mean_motion_first_derivative := old_tle.mean_motion_first_derivative
    mean_motion_second_derivative := old_tle.mean_motion_second_derivative
    epoch_days := old_tle.epoch_days
    epoch_year := old_tle.epoch_year
    classification := old_tle.classification
    satellite_catalog_number := old_tle.satellite_catalog_number
    ephemeris_type := old_tle.ephemeris_type
    international_designator := old_tle.international_designator
    revolution_number_at_epoch := old_tle.revolution_number_at_epoch
    element_number := old_tle.element_number }

/-- Modelled from the spec: the record-to-parameter mean-motion conversion
performed by the external `kessler.tle.TLE` class (the inverse direction of
the conversion in `update_TLE`; it also appears, commented out, at source
line 47: `no_kozai = mean_motion/(np.pi/43200.0)/xpdotp`). -/
def mean_motion_to_param {K : Type} [LinearOrderedField K] (pi m : K) : K :=
  m / (pi / 43200) / xpdotp pi

/-- A concrete example TLE record over the rationals, used in witnesses. -/
def exTLE : TLERec ℚ :=
  { mean_motion := 1
    b_star := 2
    raan := 3
    eccentricity := 4
    argument_of_perigee := 5
    inclination := 6
    mean_anomaly := 7
    mean_motion_first_derivative := 8
    mean_motion_second_derivative := 9
    epoch_days := 10
    epoch_year := 2024
    classification := "U"
    satellite_catalog_number := 25544
    ephemeris_type := 0
    international_designator := "98067A"
    revolution_number_at_epoch := 100
    element_number := 999 }

/-- A concrete example parameter vector over the rationals. -/
def exY : Fin 10 → ℚ := ![1, 2, 3, 4, 5, 6, 7, 8, 9, 0]

/-- C4: `update_TLE` sets the new record's mean motion to
`y[7] * xpdotp * pi / 43200` (which equals `y[7]/60`), and maps `y[0]` to the
drag term, `y[8]` to RAAN, `y[3]` to eccentricity, `y[4]` to argument of
perigee, `y[5]` to inclination and `y[6]` to mean anomaly, with no unit
conversion. -/
theorem C4_update_TLE_field_map {K : Type} [LinearOrderedField K] (pi : K)
    (hpi : pi ≠ 0) (old_tle : TLERec K) (y : Fin 10 → K) :
    (update_TLE pi old_tle y).mean_motion = y 7 * xpdotp pi * pi / 43200
    ∧ (update_TLE pi old_tle y).mean_motion = y 7 / 60
    ∧ (update_TLE pi old_tle y).b_star = y 0
    ∧ (update_TLE pi old_tle y).raan = y 8
    ∧ (update_TLE pi old_tle y).eccentricity = y 3
    ∧ (update_TLE pi old_tle y).argument_of_perigee = y 4
    ∧ (update_TLE pi old_tle y).inclination = y 5
    ∧ (update_TLE pi old_tle y).mean_anomaly = y 6 := by
  refine ⟨rfl, ?_, rfl, rfl, rfl, rfl, rfl, rfl⟩
  show y 7 * xpdotp pi * pi / 43200 = y 7 / 60
  unfold xpdotp
  field_simp
  ring

/-- Witness for C4 at a concrete input. -/
theorem C4_update_TLE_field_map_witness :
    (update_TLE 3 exTLE exY).mean_motion = exY 7 * xpdotp 3 * 3 / 43200
    ∧ (update_TLE 3 exTLE exY).mean_motion = exY 7 / 60
    ∧ (update_TLE 3 exTLE exY).b_star = exY 0
    ∧ (update_TLE 3 exTLE exY).raan = exY 8
    ∧ (update_TLE 3 exTLE exY).eccentricity = exY 3
    ∧ (update_TLE 3 exTLE exY).argument_of_perigee = exY 4
    ∧ (update_TLE 3 exTLE exY).inclination = exY 5
    ∧ (update_TLE 3 exTLE exY).mean_anomaly = exY 6 :=
  C4_update_TLE_field_map 3 (by norm_num) exTLE exY

/-- C8: applying `update_TLE` twice with the same parameter vector gives the
same record as applying it once, in every field. -/
theorem C8_update_TLE_idempotent {K : Type} [LinearOrderedField K] (pi : K)
    (old_tle : TLERec K) (y : Fin 10 → K) :
    update_TLE pi (update_TLE pi old_tle y) y = update_TLE pi old_tle y := rfl

/-- C9: converting a mean motion from the TLE record convention to the
parameter-vector convention and back through `update_TLE`'s conversion
recovers it exactly, over exact field arithmetic. -/
theorem C9_mean_motion_round_trip {K : Type} [LinearOrderedField K] (pi : K)
    (hpi : pi ≠ 0) (old_tle : TLERec K) (y : Fin 10 → K) (m : K) :
    (update_TLE pi old_tle (Function.update y 7 (mean_motion_to_param pi m))).mean_motion
      = m := by
  show Function.update y 7 (mean_motion_to_param pi m) 7 * xpdotp pi * pi / 43200 = m
  rw [Function.update_same]
  unfold mean_motion_to_param xpdotp
  field_simp
  ring

/-- Witness for C9 at a concrete input. -/
theorem C9_mean_motion_round_trip_witness :
    (update_TLE 3 exTLE (Function.update exY 7 (mean_motion_to_param 3 5))).mean_motion
      = 5 :=
  C9_mean_motion_round_trip 3 (by norm_num) exTLE exY 5

/-- C10: the record produced by `update_TLE` depends only on slots
0,3,4,5,6,7,8 of the parameter vector (and on the old record): two vectors
agreeing outside slots 1, 2 and 9 give identical records. -/
theorem C10_update_TLE_ignores_slots_1_2_9 {K : Type} [LinearOrderedField K]
    (pi : K) (old_tle : TLERec K) (y y2 : Fin 10 → K)
    (h : ∀ i : Fin 10, i ≠ 1 → i ≠ 2 → i ≠ 9 → y i = y2 i) :
    update_TLE pi old_tle y = update_TLE pi old_tle y2 := by
  unfold update_TLE
  rw [h 7 (by decide) (by decide) (by decide), h 0 (by decide) (by decide) (by decide),
    h 8 (by decide) (by decide) (by decide), h 3 (by decide) (by decide) (by decide),
    h 4 (by decide) (by decide) (by decide), h 5 (by decide) (by decide) (by decide),
    h 6 (by decide) (by decide) (by decide)]

/-- A second concrete parameter vector differing from `exY` only in slots
1, 2 and 9. -/
def exY129 : Fin 10 → ℚ := ![1, 20, 30, 4, 5, 6, 7, 8, 9, 90]

/-- Witness for C10 at a concrete input. -/
theorem C10_update_TLE_ignores_slots_1_2_9_witness :
    update_TLE 3 exTLE exY = update_TLE 3 exTLE exY129 :=
  C10_update_TLE_ignores_slots_1_2_9 3 exTLE exY exY129 (by decide)

/-- An IEEE-style numeric value: a finite number of `K`, not-a-number, or a
signed infinity.  Used to state what `update_TLE` does on non-finite input
components. -/
inductive FloatVal (K : Type) where
  | fin (x : K)
  | nan
  | inf
  | ninf
  deriving DecidableEq

/-- Whether an IEEE-style value is finite. -/
def FloatVal.isFinite {K : Type} : FloatVal K → Bool
  | .fin _ => true
  | _ => false

/-- Multiplication of an IEEE-style value by a finite positive constant,
following IEEE semantics: nan stays nan, a signed infinity keeps its sign. -/
def FloatVal.mulPos {K : Type} [LinearOrderedField K] : FloatVal K → K → FloatVal K
  | .fin x, c => .fin (x * c)
  | .nan, _ => .nan
  | .inf, _ => .inf
  | .ninf, _ => .ninf

/-- Embedding of `update_TLE` (source lines 76-114) over IEEE-style values:
the source performs no finiteness test, so every component of `y0` — finite
or not — flows directly into the constructed record (the mean motion through
the two positive scale factors `xpdotp` and `pi/43200`). -/
def update_TLE_ieee {K : Type} [LinearOrderedField K] (pi : K)
    (old_tle : TLERec (FloatVal K)) (y0 : Fin 10 → FloatVal K) :
    TLERec (FloatVal K) :=
  let no_kozai := (y0 7).mulPos (xpdotp pi)
  { mean_motion := no_kozai.mulPos (pi / 43200)
    b_star := y0 0
    raan := y0 8
    eccentricity := y0 3
    argument_of_perigee := y0 4
    inclination := y0 5
    mean_anomaly := y0 6
    mean_motion_first_derivative := old_tle.mean_motion_first_derivative
    mean_motion_second_derivative := old_tle.mean_motion_second_derivative
    epoch_days := old_tle.epoch_days
    epoch_year := old_tle.epoch_year
    classification := old_tle.classification
    satellite_catalog_number := old_tle.satellite_catalog_number
    ephemeris_type := old_tle.ephemeris_type
    international_designator := old_tle.international_designator
    revolution_number_at_epoch := old_tle.revolution_number_at_epoch
    element_number := old_tle.element_number }

/-- Error raised by the element updater according to the spec. -/
inductive UpdateErr where
  | InvalidElementError
  deriving DecidableEq

/-- Definition following the spec's words (section 4.2, Failure): an element
updater that checks every numeric component of `y0` for finiteness and fails
with `InvalidElementError` before constructing the record.  Stated for
comparison with `update_TLE_ieee`, the embedding of the source. -/
def update_TLE_specCheck {K : Type} [LinearOrderedField K] (pi : K)
    (old_tle : TLERec (FloatVal K)) (y0 : Fin 10 → FloatVal K) :
    Except UpdateErr (TLERec (FloatVal K)) :=
  if ∀ i : Fin 10, (y0 i).isFinite = true then
    Except.ok (update_TLE_ieee pi old_tle y0)
  else
    Except.error UpdateErr.InvalidElementError

/-- The example TLE record lifted to IEEE-style values. -/
def exTLEf : TLERec (FloatVal ℚ) :=
  { mean_motion := .fin 1
    b_star := .fin 2
    raan := .fin 3
    eccentricity := .fin 4
    argument_of_perigee := .fin 5
    inclination := .fin 6
    mean_anomaly := .fin 7
    mean_motion_first_derivative := .fin 8
    mean_motion_second_derivative := .fin 9
    epoch_days := .fin 10
    epoch_year := 2024
    classification := "U"
    satellite_catalog_number := 25544
    ephemeris_type := 0
    international_designator := "98067A"
    revolution_number_at_epoch := 100
    element_number := 999 }

/-- A parameter vector with non-finite components in slots 0 and 7. -/
def yNanVec : Fin 10 → FloatVal ℚ :=
  ![.nan, .fin 1, .fin 1, .fin 1, .fin 1, .fin 1, .fin 1, .nan, .fin 1, .fin 0]

/-- C6 counterexample: on a parameter vector with a non-finite component the
source's `update_TLE` does not fail — it constructs and returns the record,
with the NaN landing in the drag-term field — whereas the spec's checked
updater fails with `InvalidElementError`. -/
theorem C6_no_finiteness_check_counterexample :
    (yNanVec 0).isFinite = false
    ∧ (update_TLE_ieee 3 exTLEf yNanVec).b_star = FloatVal.nan
    ∧ update_TLE_specCheck 3 exTLEf yNanVec
        = Except.error UpdateErr.InvalidElementError := by
  refine ⟨rfl, rfl, ?_⟩
  rw [update_TLE_specCheck, if_neg]
  intro h
  exact absurd (h 0) (by decide)

/-- C6 amended: `update_TLE` performs no finiteness validation — it always
constructs and returns a record whose free-element fields are taken directly
from the parameter vector, non-finite values included, and a non-finite
`y[7]` yields a non-finite stored mean motion rather than an error. -/
theorem C6_nonfinite_passthrough {K : Type} [LinearOrderedField K] (pi : K)
    (old_tle : TLERec (FloatVal K)) (y : Fin 10 → FloatVal K) :
    (update_TLE_ieee pi old_tle y).b_star = y 0
    ∧ (update_TLE_ieee pi old_tle y).raan = y 8
    ∧ (update_TLE_ieee pi old_tle y).eccentricity = y 3
    ∧ (update_TLE_ieee pi old_tle y).argument_of_perigee = y 4
    ∧ (update_TLE_ieee pi old_tle y).inclination = y 5
    ∧ (update_TLE_ieee pi old_tle y).mean_anomaly = y 6
    ∧ ((y 7).isFinite = false →
        ((update_TLE_ieee pi old_tle y).mean_motion).isFinite = false) := by
  refine ⟨rfl, rfl, rfl, rfl, rfl, rfl, ?_⟩
  intro h
  show (((y 7).mulPos (xpdotp pi)).mulPos (pi / 43200)).isFinite = false
  cases hy : y 7 <;> rw [hy] at h <;>
    simp [FloatVal.mulPos, FloatVal.isFinite] at h ⊢

/-- Witness for the amended C6 at a concrete input. -/
theorem C6_nonfinite_passthrough_witness :
    ((update_TLE_ieee 3 exTLEf yNanVec).mean_motion).isFinite = false :=
  (C6_nonfinite_passthrough 3 exTLEf yNanVec).2.2.2.2.2.2 (by decide)

/-- Modelled from the spec: the external collaborators used by each Newton
iteration (sections 4.3, 6 and 9 of the spec), none of which are under the
sources.  `prop` gives the six propagated components `(rx,ry,rz,vx,vy,vz)` of
`util.propagate` at the current record and parameter vector; `grad` gives the
six torch reverse-mode gradient rows with respect to the ten parameters;
`inv6` is `np.linalg.inv` on 6×6 matrices, `none` standing for the
`LinAlgError` it raises on a singular input; `sqrtK` is the square root
inside `np.linalg.norm`. -/
structure Oracle (K : Type) where
  prop : TLERec K → (Fin 10 → K) → Fin 6 → K
  grad : TLERec K → (Fin 10 → K) → Matrix (Fin 6) (Fin 10) K
  inv6 : Matrix (Fin 6) (Fin 6) K → Option (Matrix (Fin 6) (Fin 6) K)
  sqrtK : K → K

/-- The residual vector `F` (source line 166): propagated components minus
target components, in the order `(rx,ry,rz,vx,vy,vz)`. -/
def residualF {K : Type} [LinearOrderedField K] (O : Oracle K)
    (target : Fin 6 → K) (tle : TLERec K) (y : Fin 10 → K) : Fin 6 → K :=
  fun k => O.prop tle y k - target k

/-- Euclidean norm of the residual (source line 167: `np.linalg.norm(F)`),
with the square root abstracted. -/
def norm2 {K : Type} [LinearOrderedField K] (sq : K → K) (F : Fin 6 → K) : K :=
  sq (∑ k : Fin 6, F k ^ 2)

/-- Dropping the first three columns of the 6×10 gradient matrix (source
line 171: `DF=DF[:,3:]`). -/
def dropFirst3 {K : Type} (M : Matrix (Fin 6) (Fin 10) K) :
    Matrix (Fin 6) (Fin 7) K :=
  fun i j => M i (j.addNat 3)

/-- Dropping the last column (source line 172: `DF=DF[:,:-1]`). -/
def dropLastCol {K : Type} (M : Matrix (Fin 6) (Fin 7) K) :
    Matrix (Fin 6) (Fin 6) K :=
  fun i j => M i j.castSucc

/-- The reduced 6×6 Jacobian built from the 6×10 gradient matrix (source
lines 169-172). -/
def reduceDF {K : Type} (M : Matrix (Fin 6) (Fin 10) K) :
    Matrix (Fin 6) (Fin 6) K :=
  dropLastCol (dropFirst3 M)

/-- Zero-padding of the six-component Gauss-Newton correction back to ten
components (source line 174: `torch.tensor([0.,0.,0.]+list(dY)+[0.])`). -/
def padDY {K : Type} [LinearOrderedField K] (d : Fin 6 → K) : Fin 10 → K :=
  ![0, 0, 0, d 0, d 1, d 2, d 3, d 4, d 5, 0]

/-- Outcome of one body execution of the Newton `while` loop (source lines
140-184): the `np.linalg.inv` call raised on a singular normal-equations
matrix, or the early convergence return fired, or the state was updated and
the loop continues with the freshly computed residual norm. -/
inductive StepRes (K : Type) where
  | singular
  | converged (tle : TLERec K) (y : Fin 10 → K)
  | next (t : K) (tle : TLERec K) (y : Fin 10 → K)

/-- Embedding of one body execution of the Newton loop (source lines
140-184): compute the residual `F` and its norm, reduce the gradient matrix,
solve the normal equations `dY = -(DFᵀDF)⁻¹DFᵀF` — note this happens before
the convergence test — then either return `(next_tle, y0)` unchanged when the
norm is strictly below the tolerance, or apply the padded correction and
rebuild the record via `update_TLE`. -/
def newtonStep {K : Type} [LinearOrderedField K] (pi : K) (O : Oracle K)
    (target : Fin 6 → K) (new_tol : K) (tle : TLERec K) (y : Fin 10 → K) :
    StepRes K :=
  let F := residualF O target tle y
  let t := norm2 O.sqrtK F
  let DF := reduceDF (O.grad tle y)
  match O.inv6 (DF.transpose * DF) with
  | none => StepRes.singular
  | some Minv =>
    let dY := padDY (fun j => -((Minv * DF.transpose).mulVec F) j)
    if t < new_tol then StepRes.converged tle y
    else
      let yN := fun j => y j + dY j
      StepRes.next t (update_TLE pi tle yN) yN

/-- Embedding of the Newton `while` loop (source lines 139-185), with the
remaining iteration budget `max_iter - i` as fuel and the residual norm of
the previous iteration (initially `1e9`) threaded through.  `none` models the
numpy `LinAlgError` propagating out of `newton_method`. -/
def newtonLoop {K : Type} [LinearOrderedField K] (pi : K) (O : Oracle K)
    (target : Fin 6 → K) (new_tol : K) :
    ℕ → K → TLERec K → (Fin 10 → K) → Option (TLERec K × (Fin 10 → K))
  | 0, _, tle, y => some (tle, y)
  | n + 1, tolPrev, tle, y =>
    if new_tol < tolPrev then
      match newtonStep pi O target new_tol tle y with
      | StepRes.singular => none
      | StepRes.converged tleR yR => some (tleR, yR)
      | StepRes.next t tleN yN => newtonLoop pi O target new_tol n t tleN yN
    else
      some (tle, y)

/-- Embedding of `newton_method` (source lines 116-185) after the
`initial_guess` call: the initial residual-norm variable is set to `1e9`
(source line 134: `tol=1e9`) and the loop runs with budget `max_iter`.  The
initial record, target state and parameter vector are those produced by
`initial_guess`, whose numeric content comes from external services and is
therefore passed in. -/
def newton_method {K : Type} [LinearOrderedField K] (pi : K) (O : Oracle K)
    (tle : TLERec K) (target : Fin 6 → K) (y : Fin 10 → K) (new_tol : K)
    (max_iter : ℕ) : Option (TLERec K × (Fin 10 → K)) :=
  newtonLoop pi O target new_tol max_iter 1000000000 tle y

/-- The parameter-vector assembly of `initial_guess` (source lines 64-73):
the first nine entries are read from the externally constructed provisional
TLE and the trailing entry is the literal `0`. -/
def initial_guess_y0 {K : Type} [LinearOrderedField K]
    (b nd ndd e a inc m k r : K) : Fin 10 → K :=
  ![b, nd, ndd, e, a, inc, m, k, r, 0]

/-- Unfolding lemma for `newtonStep` with the let bindings expanded. -/
theorem newtonStep_eq {K : Type} [LinearOrderedField K] (pi : K) (O : Oracle K)
    (target : Fin 6 → K) (new_tol : K) (tle : TLERec K) (y : Fin 10 → K) :
    newtonStep pi O target new_tol tle y =
      match O.inv6 ((reduceDF (O.grad tle y)).transpose * reduceDF (O.grad tle y)) with
      | none => StepRes.singular
      | some Minv =>
        if norm2 O.sqrtK (residualF O target tle y) < new_tol then
          StepRes.converged tle y
        else
          StepRes.next (norm2 O.sqrtK (residualF O target tle y))
            (update_TLE pi tle (fun j => y j +
              padDY (fun i => -((Minv * (reduceDF (O.grad tle y)).transpose).mulVec
                (residualF O target tle y)) i) j))
            (fun j => y j +
              padDY (fun i => -((Minv * (reduceDF (O.grad tle y)).transpose).mulVec
                (residualF O target tle y)) i) j) := rfl

/-- The `converged` outcome can only carry the unmodified current state. -/
theorem newtonStep_converged_inputs {K : Type} [LinearOrderedField K] (pi : K)
    (O : Oracle K) (target : Fin 6 → K) (new_tol : K) (tle : TLERec K)
    (y : Fin 10 → K) (a : TLERec K) (b : Fin 10 → K)
    (hs : newtonStep pi O target new_tol tle y = StepRes.converged a b) :
    a = tle ∧ b = y := by
  rw [newtonStep_eq] at hs
  cases hinv : O.inv6 ((reduceDF (O.grad tle y)).transpose * reduceDF (O.grad tle y)) with
  | none => rw [hinv] at hs; exact absurd hs (by simp)
  | some Minv =>
    rw [hinv] at hs
    by_cases hc : norm2 O.sqrtK (residualF O target tle y) < new_tol
    · simp only [hc, if_true] at hs
      cases hs
      exact ⟨rfl, rfl⟩
    · simp only [hc, if_false] at hs
      exact absurd hs (by simp)

/-- The `next` outcome always carries a parameter vector obtained from the
current one by adding a correction padded with `padDY`, and the record
rebuilt from it with `update_TLE`. -/
theorem newtonStep_next_shape {K : Type} [LinearOrderedField K] (pi : K)
    (O : Oracle K) (target : Fin 6 → K) (new_tol : K) (tle : TLERec K)
    (y : Fin 10 → K) (t : K) (a : TLERec K) (b : Fin 10 → K)
    (hs : newtonStep pi O target new_tol tle y = StepRes.next t a b) :
    ∃ d : Fin 6 → K, b = fun j => y j + padDY d j := by
  rw [newtonStep_eq] at hs
  cases hinv : O.inv6 ((reduceDF (O.grad tle y)).transpose * reduceDF (O.grad tle y)) with
  | none => rw [hinv] at hs; exact absurd hs (by simp)
  | some Minv =>
    rw [hinv] at hs
    by_cases hc : norm2 O.sqrtK (residualF O target tle y) < new_tol
    · simp only [hc, if_true] at hs
      exact absurd hs (by simp)
    · simp only [hc, if_false] at hs
      cases hs
      exact ⟨_, rfl⟩

/-- The four padded slots of the correction vector are always zero. -/
theorem padDY_fixed_slots {K : Type} [LinearOrderedField K] (d : Fin 6 → K) :
    padDY d 0 = 0 ∧ padDY d 1 = 0 ∧ padDY d 2 = 0 ∧ padDY d 9 = 0 :=
  ⟨rfl, rfl, rfl, rfl⟩

/-- Whatever the loop returns agrees with the starting parameter vector on
slots 0, 1, 2 and 9. -/
theorem newtonLoop_fixed_slots {K : Type} [LinearOrderedField K] (pi : K)
    (O : Oracle K) (target : Fin 6 → K) (new_tol : K) :
    ∀ (n : ℕ) (tolPrev : K) (tle : TLERec K) (y : Fin 10 → K) (tleF : TLERec K)
      (yF : Fin 10 → K),
      newtonLoop pi O target new_tol n tolPrev tle y = some (tleF, yF) →
      yF 0 = y 0 ∧ yF 1 = y 1 ∧ yF 2 = y 2 ∧ yF 9 = y 9 := by
  intro n
  induction n with
  | zero =>
    intro tolPrev tle y tleF yF h
    simp only [newtonLoop, Option.some.injEq, Prod.mk.injEq] at h
    obtain ⟨-, h2⟩ := h
    subst h2
    exact ⟨rfl, rfl, rfl, rfl⟩
  | succ n ih =>
    intro tolPrev tle y tleF yF h
    rw [newtonLoop] at h
    by_cases hc : new_tol < tolPrev
    · rw [if_pos hc] at h
      cases hs : newtonStep pi O target new_tol tle y with
      | singular =>
        rw [hs] at h
        exact absurd h (by simp)
      | converged a b =>
        rw [hs] at h
        obtain ⟨-, hb⟩ := newtonStep_converged_inputs pi O target new_tol tle y a b hs
        simp only [Option.some.injEq, Prod.mk.injEq] at h
        obtain ⟨-, h2⟩ := h
        subst h2
        subst hb
        exact ⟨rfl, rfl, rfl, rfl⟩
      | next t a b =>
        rw [hs] at h
        obtain ⟨d, hd⟩ := newtonStep_next_shape pi O target new_tol tle y t a b hs
        obtain ⟨i0, i1, i2, i9⟩ := ih t a b tleF yF h
        subst hd
        obtain ⟨p0, p1, p2, p9⟩ := padDY_fixed_slots d
        refine ⟨?_, ?_, ?_, ?_⟩
        · simp only [i0, p0, add_zero]
        · simp only [i1, p1, add_zero]
        · simp only [i2, p2, add_zero]
        · simp only [i9, p9, add_zero]
    · rw [if_neg hc] at h
      simp only [Option.some.injEq, Prod.mk.injEq] at h
      obtain ⟨-, h2⟩ := h
      subst h2
      exact ⟨rfl, rfl, rfl, rfl⟩

/-- C3: the reduced Jacobian drops exactly columns 0, 1, 2 and the last
column of the 6×10 gradient matrix — its six columns are the gradient
columns for parameter slots 3 through 8. -/
theorem C3_reduced_jacobian_columns {K : Type} [LinearOrderedField K]
    (G : Matrix (Fin 6) (Fin 10) K) (i : Fin 6) :
    reduceDF G i 0 = G i 3 ∧ reduceDF G i 1 = G i 4 ∧ reduceDF G i 2 = G i 5
    ∧ reduceDF G i 3 = G i 6 ∧ reduceDF G i 4 = G i 7 ∧ reduceDF G i 5 = G i 8 :=
  ⟨rfl, rfl, rfl, rfl, rfl, rfl⟩

/-- C5: the correction vector is padded with zeros in slots 0, 1, 2 and 9,
so any normal return of the Newton loop started from the `initial_guess`
parameter vector keeps slots 0-2 at their initial-guess values and slot 9
exactly 0. -/
theorem C5_zero_padding_invariant {K : Type} [LinearOrderedField K] (pi : K)
    (O : Oracle K) (target : Fin 6 → K) (new_tol : K) (n : ℕ) (tolPrev : K)
    (b nd ndd e a inc m k r : K) (tle tleF : TLERec K) (yF : Fin 10 → K)
    (d : Fin 6 → K)
    (h : newtonLoop pi O target new_tol n tolPrev tle
        (initial_guess_y0 b nd ndd e a inc m k r) = some (tleF, yF)) :
    padDY d 0 = 0 ∧ padDY d 1 = 0 ∧ padDY d 2 = 0 ∧ padDY d 9 = 0
    ∧ yF 0 = b ∧ yF 1 = nd ∧ yF 2 = ndd ∧ yF 9 = 0 := by
  obtain ⟨h0, h1, h2, h9⟩ :=
    newtonLoop_fixed_slots pi O target new_tol n tolPrev tle
      (initial_guess_y0 b nd ndd e a inc m k r) tleF yF h
  obtain ⟨p0, p1, p2, p9⟩ := padDY_fixed_slots d
  exact ⟨p0, p1, p2, p9, h0, h1, h2, h9⟩

/-- A concrete all-zero target state. -/
def tgt0 : Fin 6 → ℚ := fun _ => 0

/-- A concrete oracle whose propagated state matches the target exactly and
whose gradients vanish, with `np.linalg.inv` raising on the (exactly
singular) zero normal-equations matrix, as numpy does. -/
def OcZero : Oracle ℚ :=
  { prop := fun _ _ _ => 0
    grad := fun _ _ => 0
    inv6 := fun M => if M = 0 then none else some 1
    sqrtK := id }

/-- A concrete oracle identical to `OcZero` except that the linear solve
succeeds (returning the identity). -/
def OcConv : Oracle ℚ :=
  { prop := fun _ _ _ => 0
    grad := fun _ _ => 0
    inv6 := fun _ => some 1
    sqrtK := id }

/-- A concrete oracle whose residual norm is constantly 1 and whose linear
solve succeeds. -/
def Oc2 : Oracle ℚ :=
  { prop := fun _ _ k => if k = 0 then 1 else 0
    grad := fun _ _ => 0
    inv6 := fun _ => some 1
    sqrtK := id }

/-- A concrete oracle whose linear solve always raises. -/
def OcSing : Oracle ℚ :=
  { prop := fun _ _ _ => 0
    grad := fun _ _ => 0
    inv6 := fun _ => none
    sqrtK := id }

/-- C1 counterexample: with the residual norm (0) already below the
tolerance (1) but a singular normal-equations matrix, the iteration performs
the linear solve before the convergence test, so `newton_method` surfaces the
`LinAlgError` (`none`) instead of returning `(tle_guess, y0)`. -/
theorem C1_solve_before_convergence_counterexample :
    norm2 id (residualF OcZero tgt0 exTLE exY) < 1
    ∧ newtonStep 3 OcZero tgt0 1 exTLE exY = StepRes.singular
    ∧ newton_method 3 OcZero exTLE tgt0 exY 1 50 = none := by
  have hM : (reduceDF (OcZero.grad exTLE exY)).transpose
      * reduceDF (OcZero.grad exTLE exY) = 0 := by
    have h0 : reduceDF (OcZero.grad exTLE exY) = 0 := rfl
    rw [h0, Matrix.transpose_zero, Matrix.mul_zero]
  have hinv : OcZero.inv6 ((reduceDF (OcZero.grad exTLE exY)).transpose
      * reduceDF (OcZero.grad exTLE exY)) = none := by
    rw [hM]
    show (if (0 : Matrix (Fin 6) (Fin 6) ℚ) = 0 then none else some 1) = none
    rw [if_pos rfl]
  have hstep : newtonStep 3 OcZero tgt0 1 exTLE exY = StepRes.singular := by
    rw [newtonStep_eq, hinv]
  refine ⟨?_, hstep, ?_⟩
  · have hz : norm2 id (residualF OcZero tgt0 exTLE exY) = 0 := by
      simp [norm2, residualF, OcZero, tgt0]
    rw [hz]
    norm_num
  · show newtonLoop 3 OcZero tgt0 1 50 1000000000 exTLE exY = none
    rw [show (50 : ℕ) = 49 + 1 from rfl, newtonLoop,
      if_pos (by norm_num : (1 : ℚ) < 1000000000), hstep]

/-- C1 amended: in an iteration whose residual norm is strictly below the
tolerance and whose normal-equations matrix is invertible (the external
solve succeeds), the solver returns `(tle_guess, y0)` with the pending
correction not applied; the normal equations are still solved before the
convergence test, so a singular matrix raises even then, and the test uses
strict `<`. -/
theorem C1_converged_skips_update {K : Type} [LinearOrderedField K] (pi : K)
    (O : Oracle K) (target : Fin 6 → K) (new_tol : K) (tle : TLERec K)
    (y : Fin 10 → K) (M : Matrix (Fin 6) (Fin 6) K) (n : ℕ) (tolPrev : K)
    (hinv : O.inv6 ((reduceDF (O.grad tle y)).transpose * reduceDF (O.grad tle y))
      = some M)
    (hconv : norm2 O.sqrtK (residualF O target tle y) < new_tol)
    (htol : new_tol < tolPrev) :
    newtonStep pi O target new_tol tle y = StepRes.converged tle y
    ∧ newtonLoop pi O target new_tol (n + 1) tolPrev tle y = some (tle, y) := by
  have hstep : newtonStep pi O target new_tol tle y = StepRes.converged tle y := by
    rw [newtonStep_eq, hinv]
    simp only [hconv, if_true]
  refine ⟨hstep, ?_⟩
  rw [newtonLoop, if_pos htol, hstep]

/-- Witness for the amended C1 at a concrete input. -/
theorem C1_converged_skips_update_witness :
    newtonStep 3 OcConv tgt0 1 exTLE exY = StepRes.converged exTLE exY
    ∧ newtonLoop 3 OcConv tgt0 1 (49 + 1) 1000000000 exTLE exY
        = some (exTLE, exY) :=
  C1_converged_skips_update 3 OcConv tgt0 1 exTLE exY 1 49 1000000000 rfl
    (by
      have hz : norm2 OcConv.sqrtK (residualF OcConv tgt0 exTLE exY) = 0 := by
        simp [norm2, residualF, OcConv, tgt0]
      rw [hz]
      norm_num)
    (by norm_num)

/-- If every iteration keeps the residual norm strictly above the tolerance
and the linear solve succeeds, the loop runs its whole budget and returns
the iterated state. -/
theorem newtonLoop_all_next {K : Type} [LinearOrderedField K] (pi : K)
    (O : Oracle K) (target : Fin 6 → K) (new_tol : K)
    (f : TLERec K × (Fin 10 → K) → TLERec K × (Fin 10 → K))
    (tfun : TLERec K × (Fin 10 → K) → K)
    (h : ∀ s : TLERec K × (Fin 10 → K),
      newtonStep pi O target new_tol s.1 s.2 = StepRes.next (tfun s) (f s).1 (f s).2
      ∧ new_tol < tfun s) :
    ∀ (n : ℕ) (tolPrev : K) (s : TLERec K × (Fin 10 → K)), new_tol < tolPrev →
      newtonLoop pi O target new_tol n tolPrev s.1 s.2 = some (f^[n] s) := by
  intro n
  induction n with
  | zero =>
    intro tolPrev s _
    rw [newtonLoop, Function.iterate_zero_apply]
  | succ n ih =>
    intro tolPrev s hlt
    rw [newtonLoop, if_pos hlt, (h s).1, Function.iterate_succ_apply]
    exact ih (tfun s) (f s) (h s).2

/-- C2: when every iteration leaves the residual norm strictly above the
tolerance (and the solve succeeds), `newton_method` terminates after exactly
`max_iter` iterations and returns the last `(tle_guess, y0)` pair as a
normal value — no exception on exhaustion. -/
theorem C2_exhaustion_returns_last {K : Type} [LinearOrderedField K] (pi : K)
    (O : Oracle K) (target : Fin 6 → K) (new_tol : K)
    (f : TLERec K × (Fin 10 → K) → TLERec K × (Fin 10 → K))
    (tfun : TLERec K × (Fin 10 → K) → K)
    (h : ∀ s : TLERec K × (Fin 10 → K),
      newtonStep pi O target new_tol s.1 s.2 = StepRes.next (tfun s) (f s).1 (f s).2
      ∧ new_tol < tfun s)
    (htol : new_tol < 1000000000) (max_iter : ℕ) (tle : TLERec K)
    (y : Fin 10 → K) :
    newton_method pi O tle target y new_tol max_iter
      = some (f^[max_iter] (tle, y)) :=
  newtonLoop_all_next pi O target new_tol f tfun h max_iter 1000000000 (tle, y)
    htol

/-- The parameter vector after one `Oc2` iteration, written exactly as
`newtonStep` builds it (the correction happens to be zero). -/
def stepYc (s : TLERec ℚ × (Fin 10 → ℚ)) : Fin 10 → ℚ :=
  fun j => s.2 j + padDY (fun i =>
    -(((1 : Matrix (Fin 6) (Fin 6) ℚ)
        * (reduceDF (Oc2.grad s.1 s.2)).transpose).mulVec
      (residualF Oc2 tgt0 s.1 s.2)) i) j

/-- The state transition of one `Oc2` iteration. -/
def fC2 (s : TLERec ℚ × (Fin 10 → ℚ)) : TLERec ℚ × (Fin 10 → ℚ) :=
  (update_TLE 3 s.1 (stepYc s), stepYc s)

/-- The residual norm of one `Oc2` iteration. -/
def tC2 (s : TLERec ℚ × (Fin 10 → ℚ)) : ℚ :=
  norm2 id (residualF Oc2 tgt0 s.1 s.2)

/-- The `Oc2` residual norm is constantly 1. -/
theorem tC2_eq_one (s : TLERec ℚ × (Fin 10 → ℚ)) : tC2 s = 1 := by
  simp [tC2, norm2, residualF, Oc2, tgt0, Fin.sum_univ_six]

/-- One `Oc2` iteration always takes the `next` branch, with residual norm
`tC2` and state transition `fC2`. -/
theorem Oc2_step (s : TLERec ℚ × (Fin 10 → ℚ)) :
    newtonStep 3 Oc2 tgt0 (1 / 2) s.1 s.2
      = StepRes.next (tC2 s) (fC2 s).1 (fC2 s).2 := by
  have hn : norm2 Oc2.sqrtK (residualF Oc2 tgt0 s.1 s.2) = 1 := tC2_eq_one s
  rw [newtonStep_eq]
  simp only [show Oc2.inv6 ((reduceDF (Oc2.grad s.1 s.2)).transpose
    * reduceDF (Oc2.grad s.1 s.2)) = some 1 from rfl, hn, tC2_eq_one s]
  rw [if_neg (by norm_num : ¬(1 : ℚ) < 1 / 2)]
  rfl

/-- Witness for C2 at a concrete input: two full iterations. -/
theorem C2_exhaustion_returns_last_witness :
    newton_method 3 Oc2 exTLE tgt0 exY (1 / 2) 2 = some (fC2^[2] (exTLE, exY)) :=
  C2_exhaustion_returns_last 3 Oc2 tgt0 (1 / 2) fC2 tC2
    (fun s => ⟨Oc2_step s, by rw [tC2_eq_one s]; norm_num⟩) (by norm_num) 2
    exTLE exY

/-- C7 counterexample: the initial residual-norm variable is `1e9`, not
`+∞` — with the finite tolerance `1e9` and `max_iter = 1` the loop body is
never entered: `newton_method` returns the seed untouched even though the
body, had it run, would have raised through the always-singular solve. -/
theorem C7_init_not_infinite_counterexample :
    newton_method 3 OcSing exTLE tgt0 exY 1000000000 1 = some (exTLE, exY)
    ∧ newtonStep 3 OcSing tgt0 1000000000 exTLE exY = StepRes.singular := by
  constructor
  · show newtonLoop 3 OcSing tgt0 1000000000 1 1000000000 exTLE exY
      = some (exTLE, exY)
    rw [show (1 : ℕ) = 0 + 1 from rfl, newtonLoop,
      if_neg (by norm_num : ¬(1000000000 : ℚ) < 1000000000)]
  · rw [newtonStep_eq,
      show OcSing.inv6 ((reduceDF (OcSing.grad exTLE exY)).transpose
        * reduceDF (OcSing.grad exTLE exY)) = none from rfl]

/-- C7 amended: the initial residual-norm variable is set to `1e9`, so for
every tolerance strictly below `1e9` and `max_iter ≥ 1` the loop body runs
at least once. -/
theorem C7_first_iteration_runs {K : Type} [LinearOrderedField K] (pi : K)
    (O : Oracle K) (target : Fin 6 → K) (new_tol : K) (n : ℕ) (tle : TLERec K)
    (y : Fin 10 → K) (h : new_tol < 1000000000) :
    newton_method pi O tle target y new_tol (n + 1)
      = (match newtonStep pi O target new_tol tle y with
         | StepRes.singular => none
         | StepRes.converged tleR yR => some (tleR, yR)
         | StepRes.next t tleN yN => newtonLoop pi O target new_tol n t tleN yN) := by
  show newtonLoop pi O target new_tol (n + 1) 1000000000 tle y = _
  rw [newtonLoop, if_pos h]

/-- Witness for the amended C7 at a concrete input. -/
theorem C7_first_iteration_runs_witness :
    newton_method 3 OcSing exTLE tgt0 exY (1 / 2) (0 + 1)
      = (match newtonStep 3 OcSing tgt0 (1 / 2) exTLE exY with
         | StepRes.singular => none
         | StepRes.converged tleR yR => some (tleR, yR)
         | StepRes.next t tleN yN => newtonLoop 3 OcSing tgt0 (1 / 2) 0 t tleN yN) :=
  C7_first_iteration_runs 3 OcSing tgt0 (1 / 2) 0 exTLE exY (by norm_num)

/-- Witness for C5 at a concrete input: one `Oc2` iteration started from the
`initial_guess` layout. -/
theorem C5_zero_padding_invariant_witness :
    padDY (fun _ => (7 : ℚ)) 0 = 0 ∧ padDY (fun _ => (7 : ℚ)) 1 = 0
    ∧ padDY (fun _ => (7 : ℚ)) 2 = 0 ∧ padDY (fun _ => (7 : ℚ)) 9 = 0
    ∧ (fC2 (exTLE, initial_guess_y0 1 2 3 4 5 6 7 8 9)).2 0 = 1
    ∧ (fC2 (exTLE, initial_guess_y0 1 2 3 4 5 6 7 8 9)).2 1 = 2
    ∧ (fC2 (exTLE, initial_guess_y0 1 2 3 4 5 6 7 8 9)).2 2 = 3
    ∧ (fC2 (exTLE, initial_guess_y0 1 2 3 4 5 6 7 8 9)).2 9 = 0 :=
  C5_zero_padding_invariant 3 Oc2 tgt0 (1 / 2) 1 1000000000 1 2 3 4 5 6 7 8 9
    exTLE (fC2 (exTLE, initial_guess_y0 1 2 3 4 5 6 7 8 9)).1
    (fC2 (exTLE, initial_guess_y0 1 2 3 4 5 6 7 8 9)).2 (fun _ => 7)
    (by
      have hs : newtonStep 3 Oc2 tgt0 (1 / 2) exTLE
            (initial_guess_y0 1 2 3 4 5 6 7 8 9)
          = StepRes.next (tC2 (exTLE, initial_guess_y0 1 2 3 4 5 6 7 8 9))
              (fC2 (exTLE, initial_guess_y0 1 2 3 4 5 6 7 8 9)).1
              (fC2 (exTLE, initial_guess_y0 1 2 3 4 5 6 7 8 9)).2 :=
        Oc2_step (exTLE, initial_guess_y0 1 2 3 4 5 6 7 8 9)
      rw [show (1 : ℕ) = 0 + 1 from rfl, newtonLoop,
        if_pos (by norm_num : (1 : ℚ) / 2 < 1000000000), hs]
      rfl)
